import Mathlib

/-!
Verification of the gulp-cf-deploy deployment engine (src/src/deploy.ts, with
the legacy variant src/src/deploy.js where it differs).

The embedding is shallow: the pure helpers of the source are translated
directly; the remote CloudFormation service is modelled by scripted
responses (`DeployEnv`), the polling loop consumes one scripted `Tick` per
iteration, and console logging is modelled as a list of `LogLine` values.
-/

namespace CfDeploy

/-- lodash `startsWith(s, p)`: `p` is a prefix of `s`. -/
def strStartsWith (s p : String) : Bool :=
  List.isPrefixOf p.data s.data

/-- lodash `endsWith(s, p)`: `p` is a suffix of `s`. -/
def strEndsWith (s p : String) : Bool :=
  List.isSuffixOf p.data s.data

/-- Whether `needle` occurs as a contiguous run inside `haystack`. -/
def listContainsSeq (needle : List Char) : List Char → Bool
  | [] => needle.isEmpty
  | c :: rest => List.isPrefixOf needle (c :: rest) || listContainsSeq needle rest

/-- lodash `includes(s, p)`: `p` occurs as a substring of `s`. -/
def strIncludes (s p : String) : Bool :=
  listContainsSeq p.data s.data

/-- One entry of a CloudFormation stack `Outputs` list. -/
structure Output where
  OutputKey : String
  OutputValue : String
deriving DecidableEq

/-- The slice of the AWS SDK `Stack` record that deploy.ts reads. -/
structure Stack where
  StackId : String
  StackStatus : String
  StackStatusReason : Option String
  Outputs : List Output
deriving DecidableEq

/-- The slice of the AWS SDK `StackEvent` record that deploy.ts reads.
`LogicalResourceId = ""` models a missing/empty id (JS falsy). -/
structure StackEvent where
  LogicalResourceId : String
  ResourceStatus : String
  ResourceStatusReason : Option String
  PhysicalResourceId : String
deriving DecidableEq

/-- deploy.ts line 29: `endsWith(state.StackStatus, '_IN_PROGRESS')`. -/
def isInProgress (state : Stack) : Bool :=
  strEndsWith state.StackStatus ("_IN_PROGRESS")

/-- deploy.ts line 32: `endsWith(state.StackStatus, '_CLEANUP_IN_PROGRESS')`. -/
def isCleanupInProgress (state : Stack) : Bool :=
  strEndsWith state.StackStatus ("_CLEANUP_IN_PROGRESS")

/-- deploy.ts line 35: the event marking the start of the current operation. -/
def isInitialStackEvent (event : StackEvent) (StackId : String) : Bool :=
  event.PhysicalResourceId == StackId &&
    (["CREATE_IN_PROGRESS", "UPDATE_IN_PROGRESS"].any fun s => s == event.ResourceStatus)

/-- deploy.ts line 41: `endsWith(event.ResourceStatus, 'FAILED')`. -/
def isFailedStackEvent (event : StackEvent) : Bool :=
  strEndsWith event.ResourceStatus ("FAILED")

/-- deploy.ts line 44: any of ROLLBACK / DELETE / FAILED occurs in the status. -/
def stackStateIndicatesFailure (state : Stack) : Bool :=
  ["ROLLBACK", "DELETE", "FAILED"].any fun s => strIncludes state.StackStatus s

/-- deploy.ts line 47 (current variant): contains COMPLETE, does not contain
ROLLBACK, and starts with CREATE or UPDATE. -/
def isDeploySuccessful (state : Stack) : Bool :=
  strIncludes state.StackStatus ("COMPLETE") &&
  !strIncludes state.StackStatus ("ROLLBACK") &&
  (["CREATE", "UPDATE"].any fun s => strStartsWith state.StackStatus s)

/-- deploy.js line 34 (legacy variant): contains `_COMPLETE` and starts with
`CREATE_` or `UPDATE_`; note it has no ROLLBACK exclusion. -/
def isDeployComplete (state : Stack) : Bool :=
  strIncludes state.StackStatus ("_COMPLETE") &&
  (["CREATE_", "UPDATE_"].any fun s => strStartsWith state.StackStatus s)

/-- JS object update `o[k] = v`: replace in place if the key exists, else append. -/
def setPair : List (String × String) → String → String → List (String × String)
  | [], k, v => [(k, v)]
  | (k', v') :: rest, k, v =>
    if k' == k then (k', v) :: rest else (k', v') :: setPair rest k v

/-- lodash `fromPairs`: build a key-value object from a pair list; a later
duplicate key overwrites the earlier value, keeping the first key position. -/
def fromPairs (pairs : List (String × String)) : List (String × String) :=
  pairs.foldl (fun acc p => setPair acc p.1 p.2) []

/-- deploy.ts line 52: `Outputs` turned into a plain key-to-value mapping. -/
def simplifiedOutput (state : Stack) : List (String × String) :=
  fromPairs (state.Outputs.map fun o => (o.OutputKey, o.OutputValue))

/-- deploy.ts line 70: `type ParameterValue = string | number`. -/
inductive ParameterValue where
  | str (value : String)
  | num (value : Int)
deriving DecidableEq

/-- deploy.ts line 74: `String(param)` coercion of a parameter value. -/
def parameterValue (param : ParameterValue) : String :=
  match param with
  | ParameterValue.str s => s
  | ParameterValue.num n => toString n

/-- One entry of the CloudFormation `Parameters` list. -/
structure Parameter where
  ParameterKey : String
  ParameterValue : String
deriving DecidableEq

/-- The map entry shape produced by `Object.entries(parameters).map(...)`
inside deploy.ts `buildParameters` (lines 133-136). -/
def hashParameterEntry (p : String × ParameterValue) : Parameter :=
  { ParameterKey := p.1, ParameterValue := parameterValue p.2 }

/-- deploy.ts lines 131-137: existing `stackOptions.Parameters` (or `[]`)
followed by one entry per key of the caller's parameter map, in the map's
insertion order (modelled by the order of the association list). -/
def buildParameters (existingParameters : Option (List Parameter))
    (parameters : List (String × ParameterValue)) : List Parameter :=
  existingParameters.getD [] ++ parameters.map hashParameterEntry

/-- Occurrences of a parameter key in a parameter list. -/
def countParamKey (k : String) (l : List Parameter) : Nat :=
  (l.filter fun p => p.ParameterKey == k).length

/-- deploy.ts lines 107-115, pure core: the fetched event log (newest first)
truncated to the events strictly newer than the start of the current
operation, then reversed to chronological order. -/
def retrieveStackEvents (stackId : String) (stackEvents : List StackEvent) : List StackEvent :=
  (stackEvents.takeWhile fun e => !isInitialStackEvent e stackId).reverse

/-- One human-readable console line emitted by the engine, abstracted to the
data that distinguishes it (deploy.ts lines 170-198). -/
inductive LogLine where
  | creating (logicalId : String)
  | updating (logicalId : String)
  | deleting (logicalId : String)
  | failureDetail (logicalId : String) (status : String) (reason : String)
  | consoleUrl (stackId : String)
  | statusLine (status : String) (nextDelaySeconds : Option Nat)
deriving DecidableEq

/-- deploy.ts line 125: `e.ResourceStatusReason || e.ResourceStatus || '<unknown>'`
(the JS falsy chain, with absence modelled by `Option`/empty string). -/
def failureReasonText (e : StackEvent) : String :=
  match e.ResourceStatusReason with
  | some r => r
  | none => if e.ResourceStatus != ("") then e.ResourceStatus else ("<unknown>")

/-- deploy.ts lines 117-129: one red line per event whose status ends in FAILED,
in the order given (chronological when fed from `retrieveStackEvents`). -/
def logFailures (stackEvents : List StackEvent) : List LogLine :=
  (stackEvents.filter fun e => isFailedStackEvent e).map fun e =>
    LogLine.failureDetail e.LogicalResourceId e.ResourceStatus (failureReasonText e)

/-- deploy.ts lines 169-175: classify one event as a creating / updating /
deleting progress line by the prefix of its resource status (or none). -/
def progressLine (e : StackEvent) : List LogLine :=
  if strStartsWith e.ResourceStatus ("CREATE") then [LogLine.creating e.LogicalResourceId]
  else if strStartsWith e.ResourceStatus ("UPDATE") then [LogLine.updating e.LogicalResourceId]
  else if strStartsWith e.ResourceStatus ("DELETE") then [LogLine.deleting e.LogicalResourceId]
  else []

/-- deploy.ts lines 166-178: the `forEach` over the filtered events; an event
whose logical id is already in `reportedLogicalIds` is skipped, otherwise its
(possibly empty) progress line is emitted and the id is pushed. Returns the
grown id list and the emitted lines. -/
def reportProgress : List String → List StackEvent → List String × List LogLine
  | ids, [] => (ids, [])
  | ids, e :: rest =>
    if e.LogicalResourceId ∈ ids then
      reportProgress ids rest
    else
      let r := reportProgress (ids ++ [e.LogicalResourceId]) rest
      (r.1, progressLine e ++ r.2)

/-- The mutable locals of one `completedState` invocation
(deploy.ts lines 148-151). -/
structure LoopState where
  haveReportedFailures : Bool
  reportedLogicalIds : List String
  delaySeconds : Nat
deriving DecidableEq

/-- deploy.ts lines 160-193: the `if (reportEvents)` block of one poll tick:
fetch and truncate events, emit deduplicated progress lines, and on the first
tick whose stack state indicates failure emit the failure details plus one
console-URL line and latch `haveReportedFailures`. -/
def reportTick (stackId : String) (s : LoopState) (state : Stack)
    (events : List StackEvent) : LoopState × List LogLine :=
  let stackEvents := retrieveStackEvents stackId events
  let q := reportProgress s.reportedLogicalIds
    (stackEvents.filter fun e => e.LogicalResourceId != ("") && e.PhysicalResourceId != stackId)
  if !s.haveReportedFailures && stackStateIndicatesFailure state then
    (⟨true, q.1, s.delaySeconds⟩, q.2 ++ logFailures stackEvents ++ [LogLine.consoleUrl stackId])
  else
    (⟨s.haveReportedFailures, q.1, s.delaySeconds⟩, q.2)

/-- deploy.ts line 24. -/
def MAX_REPORT_SECONDS : Nat := 15

/-- The scripted responses for one poll tick: the `describeStacks` state and,
when events are reported, the raw `describeStackEvents` log (newest first). -/
structure Tick where
  stack : Stack
  events : List StackEvent
deriving DecidableEq

/-- Everything observable about one `completedState` run: the state returned
on completion (`none` when the scripted ticks ran out while the real loop
would keep polling), the emitted log, the slept delays, the number of
`describeStacks` polls, the polled states and the final loop locals. -/
structure LoopResult where
  finalState : Option Stack
  log : List LogLine
  delays : List Nat
  polls : Nat
  polledStates : List Stack
  endState : LoopState
deriving DecidableEq

/-- deploy.ts lines 139-206: one iteration per scripted tick. The completion
predicate is `!isInProgress || (!waitForCleanup && isCleanupInProgress)`; the
event-reporting block runs before the completion check returns; one status
line is always logged; the backoff delay doubles, capped at
`MAX_REPORT_SECONDS`, after each non-completed tick. -/
def completedState (stackId : String) (reportEvents waitForCleanup : Bool) :
    LoopState → List Tick → LoopResult
  | s, [] => ⟨none, [], [], 0, [], s⟩
  | s, t :: rest =>
    let completed := !isInProgress t.stack || (!waitForCleanup && isCleanupInProgress t.stack)
    let p := if reportEvents then reportTick stackId s t.stack t.events else (s, [])
    let statusL := LogLine.statusLine t.stack.StackStatus
      (if completed then none else some p.1.delaySeconds)
    if completed then
      ⟨some t.stack, p.2 ++ [statusL], [], 1, [t.stack], p.1⟩
    else
      let s2 : LoopState :=
        ⟨p.1.haveReportedFailures, p.1.reportedLogicalIds, min (p.1.delaySeconds * 2) MAX_REPORT_SECONDS⟩
      let r := completedState stackId reportEvents waitForCleanup s2 rest
      ⟨r.finalState, p.2 ++ [statusL] ++ r.log, p.1.delaySeconds :: r.delays,
        r.polls + 1, t.stack :: r.polledStates, r.endState⟩

/-- deploy.ts lines 148-151: `haveReportedFailures = false`,
`reportedLogicalIds = []`, `delaySeconds = 2` at loop entry. -/
def initialLoopState : LoopState := ⟨false, [], 2⟩

/-- The state and lines produced by the (possibly skipped) event block of one
tick of `completedState`. -/
def tickEventsResult (re : Bool) (stackId : String) (s : LoopState) (t : Tick) :
    LoopState × List LogLine :=
  if re then reportTick stackId s t.stack t.events else (s, [])

/-- The loop locals carried into the next iteration after a non-completed
tick: same reporting state, doubled delay capped at `MAX_REPORT_SECONDS`. -/
def nextLoopState (re : Bool) (stackId : String) (s : LoopState) (t : Tick) : LoopState :=
  ⟨(tickEventsResult re stackId s t).1.haveReportedFailures,
    (tickEventsResult re stackId s t).1.reportedLogicalIds,
    min ((tickEventsResult re stackId s t).1.delaySeconds * 2) MAX_REPORT_SECONDS⟩

/-- A remote-service error: a machine-readable code plus a human message.
Per the service interface, the stack-not-found error during a describe call
carries the validation code (deploy.ts line 215 tests `e.code`). -/
structure AwsErr where
  code : String
  message : String
deriving DecidableEq

/-- The caller-supplied stack options, restricted to the fields the engine
reads or writes (`CreateStackInput`/`UpdateStackInput`). `none` models an
absent key of the JS object. -/
structure StackInput where
  StackName : Option String := none
  OnFailure : Option String := none
  Parameters : Option (List Parameter) := none
  TemplateBody : Option String := none
deriving DecidableEq

/-- JS object spread `{ ...a, ...b }` over the modelled fields: a key present
in `b` wins, otherwise the key of `a` is kept. -/
def StackInput.spread (a b : StackInput) : StackInput :=
  { StackName := b.StackName <|> a.StackName,
    OnFailure := b.OnFailure <|> a.OnFailure,
    Parameters := b.Parameters <|> a.Parameters,
    TemplateBody := b.TemplateBody <|> a.TemplateBody }

/-- deploy.ts lines 232-238: `{ ...(updating ? {} : { OnFailure: 'DELETE' }),
...stackOptions, Parameters: buildParameters(), TemplateBody: ... }` — the
DELETE-on-failure default first (create only), overlaid by the caller's
options, with the merged parameters and template body set last. -/
def deployParams (updating : Bool) (stackOptions : StackInput)
    (parameters : List (String × ParameterValue)) (templateBody : String) : StackInput :=
  let base := StackInput.spread
    (if updating then {} else { OnFailure := some ("DELETE") }) stackOptions
  { base with
    Parameters := some (buildParameters stackOptions.Parameters parameters),
    TemplateBody := some templateBody }

/-- Vinyl file contents: a null placeholder, a concrete buffer (its text), or
a stream (any non-null, non-buffer contents). -/
inductive FileContents where
  | nullContents
  | buffer (text : String)
  | stream
deriving DecidableEq

/-- The slice of a vinyl file the engine reads. -/
structure VinylFile where
  stem : String
  contents : FileContents
deriving DecidableEq

/-- vinyl `file.isNull()`. -/
def VinylFile.isNull (f : VinylFile) : Bool :=
  match f.contents with
  | FileContents.nullContents => true
  | _ => false

/-- vinyl `file.isBuffer()`. -/
def VinylFile.isBuffer (f : VinylFile) : Bool :=
  match f.contents with
  | FileContents.buffer _ => true
  | _ => false

/-- deploy.ts line 97. -/
def bufferedFilesMessage : String :=
  "Can only handle buffered files, pipe through vinyl-buffer beforehand"

/-- deploy.ts line 253: the exact benign no-op validation message. -/
def noUpdatesMessage : String := "No updates are to be performed."

/-- The errors the engine can raise, structured by raise site.
`remote` rethrows a service error unchanged (deploy.ts lines 216, 259);
`bufferedFiles` is the plugin error of line 96; `deployFailed` the plugin
error of line 266, carrying the stack name and the status reason text;
`pollExhausted` is a model artifact marking that the scripted tick responses
ran out while the real loop would still be polling. -/
inductive DeployError where
  | bufferedFiles
  | deployFailed (stackName : Option String) (statusText : String)
  | remote (e : AwsErr)
  | pollExhausted
deriving DecidableEq

/-- deploy.ts lines 267-268: `resultState.StackStatusReason || resultState.StackStatus`. -/
def deployFailedText (state : Stack) : String :=
  match state.StackStatusReason with
  | some r => r
  | none => state.StackStatus

/-- The message text of the two plugin errors, as interpolated by the source
(`${stackName}` of an absent name prints as `undefined` in JS). -/
def deployErrorMessage : DeployError → Option String
  | DeployError.bufferedFiles => some bufferedFilesMessage
  | DeployError.deployFailed n t =>
      some (("Deploying ") ++ n.getD ("undefined") ++ (" failed (") ++ t ++ (")"))
  | DeployError.remote _ => none
  | DeployError.pollExhausted => none

/-- The value the engine hands to the stream on success: the incoming file
passed through untouched (null input), or the output file carrying the
simplified outputs mapping. -/
inductive DeployOutput where
  | passthrough (file : VinylFile)
  | outputFile (data : List (String × String))
deriving DecidableEq

/-- Scripted remote responses for one deploy invocation: the initial
`describeStacks` lookup, the ticks consumed while waiting out a previous
operation, the create/update submission response (a StackId on success), and
the ticks of the main reporting loop. -/
structure DeployEnv where
  lookupResult : Except AwsErr Stack
  waitTicks : List Tick
  submitResult : Except AwsErr String
  mainTicks : List Tick

/-- Everything observable about one deploy invocation: the result or error,
the total number of remote calls made, the number of `describeStacks` polls of
the main (reportEvents) loop, whether the submission was an update (`none`
when nothing was submitted), and the submitted payload. -/
structure DeployResult where
  result : Except DeployError DeployOutput
  remoteCalls : Nat
  mainPolls : Nat
  submittedUpdate : Option Bool
  submittedParams : Option StackInput

/-- deploy.ts lines 208-218: the initial existing-stack lookup; an error
whose code is not the validation (stack-not-found) code is rethrown, a
validation-coded error is swallowed leaving no initial state. -/
def lookupInitialState (r : Except AwsErr Stack) : Except AwsErr (Option Stack) :=
  match r with
  | Except.ok s => Except.ok (some s)
  | Except.error e =>
    if e.code = ("ValidationError") then Except.ok none else Except.error e

/-- deploy.ts lines 219-228: when the found stack is in progress, wait out the
previous operation with `reportEvents = false, waitForCleanup = true`. -/
def waitForPrevious (env : DeployEnv) (found : Option Stack) : Except DeployError (Option Stack) :=
  match found with
  | none => Except.ok none
  | some st =>
    if isInProgress st then
      match (completedState st.StackId false true initialLoopState env.waitTicks).finalState with
      | some st2 => Except.ok (some st2)
      | none => Except.error DeployError.pollExhausted
    else Except.ok (some st)

/-- Remote `describeStacks` calls made by `waitForPrevious`. -/
def waitCalls (env : DeployEnv) (found : Option Stack) : Nat :=
  match found with
  | none => 0
  | some st =>
    if isInProgress st then
      (completedState st.StackId false true initialLoopState env.waitTicks).polls
    else 0

/-- deploy.ts lines 262-270: the terminal classification. When the result was
not the skipped no-op and is not a successful completion, a deployment-failed
error is raised (after one more `logFailures` fetch when the status ends in
`_FAILED`, counted as one extra remote call). -/
def finishDeploy (stackOptions : StackInput) (skipped : Bool)
    (resultState : Stack) : Except DeployError DeployOutput × Nat :=
  if !skipped && !isDeploySuccessful resultState then
    (Except.error (DeployError.deployFailed stackOptions.StackName (deployFailedText resultState)),
      if strEndsWith resultState.StackStatus ("_FAILED") then 1 else 0)
  else
    (Except.ok (DeployOutput.outputFile (simplifiedOutput resultState)), 0)

/-- deploy.ts lines 239-270: submit the create/update, then either drive the
main poll loop (`reportEvents = true, waitForCleanup = false`), or — exactly
when updating and the submission failed with the validation-coded error whose
message is `noUpdatesMessage` — take the pre-update state as the result with
no polling (`skipped`); any other submission error is rethrown. -/
def submitAndFinish (env : DeployEnv) (stackOptions : StackInput)
    (initialState : Option Stack) (dp : StackInput) (callsSoFar : Nat) : DeployResult :=
  let updating := initialState.isSome
  match env.submitResult with
  | Except.ok stackId =>
    let r := completedState stackId true false initialLoopState env.mainTicks
    match r.finalState with
    | none =>
      ⟨Except.error DeployError.pollExhausted, callsSoFar + 1 + 2 * r.polls, r.polls,
        some updating, some dp⟩
    | some resultState =>
      let f := finishDeploy stackOptions false resultState
      ⟨f.1, callsSoFar + 1 + 2 * r.polls + f.2, r.polls, some updating, some dp⟩
  | Except.error e =>
    match initialState with
    | some st =>
      if e.code = ("ValidationError") ∧ e.message = noUpdatesMessage then
        let f := finishDeploy stackOptions true st
        ⟨f.1, callsSoFar + 1 + f.2, 0, some updating, some dp⟩
      else
        ⟨Except.error (DeployError.remote e), callsSoFar + 1, 0, some updating, some dp⟩
    | none =>
      ⟨Except.error (DeployError.remote e), callsSoFar + 1, 0, some updating, some dp⟩

/-- deploy.ts lines 208-270 after the file gate: lookup the existing stack
(one remote call), wait out any in-flight previous operation, decide
create-vs-update by whether an initial state was resolved, build the payload
and submit. -/
def deployBody (env : DeployEnv) (stackOptions : StackInput)
    (parameters : List (String × ParameterValue)) (templateBody : String) : DeployResult :=
  match lookupInitialState env.lookupResult with
  | Except.error e => ⟨Except.error (DeployError.remote e), 1, 0, none, none⟩
  | Except.ok found =>
    match waitForPrevious env found with
    | Except.error err => ⟨Except.error err, 1 + waitCalls env found, 0, none, none⟩
    | Except.ok initialState =>
      let updating := initialState.isSome
      let dp := deployParams updating stackOptions parameters templateBody
      submitAndFinish env stackOptions initialState dp (1 + waitCalls env found)

/-- deploy.ts lines 83-277: resolve the stack options from the second
argument (a name, an options object, or the file stem by default), pass a
null file through untouched, reject non-buffer contents before any remote
call, and otherwise run the deployment with the buffer text as template
body. -/
def deploy (env : DeployEnv) (stackNameOrOptions : Option (String ⊕ StackInput))
    (parameters : List (String × ParameterValue)) (file : VinylFile) : DeployResult :=
  let stackOptions : StackInput :=
    match stackNameOrOptions with
    | some (Sum.inl name) => { StackName := some name }
    | some (Sum.inr opts) => opts
    | none => { StackName := some file.stem }
  match file.contents with
  | FileContents.nullContents =>
    ⟨Except.ok (DeployOutput.passthrough file), 0, 0, none, none⟩
  | FileContents.stream =>
    ⟨Except.error DeployError.bufferedFiles, 0, 0, none, none⟩
  | FileContents.buffer body => deployBody env stackOptions parameters body

/-- Whether a log line is the creating / updating / deleting progress line of
the given logical resource id. -/
def isProgressLineFor (id : String) : LogLine → Bool
  | LogLine.creating i => i == id
  | LogLine.updating i => i == id
  | LogLine.deleting i => i == id
  | _ => false

/-- Number of progress lines for a given logical resource id in a log. -/
def progressCount (id : String) (log : List LogLine) : Nat :=
  (log.filter (isProgressLineFor id)).length

/-- Whether a log line is the console-URL line of a failure report. -/
def isConsoleUrlLine : LogLine → Bool
  | LogLine.consoleUrl _ => true
  | _ => false

/-- Number of console-URL failure-report lines in a log. -/
def urlCount (log : List LogLine) : Nat :=
  (log.filter isConsoleUrlLine).length

/-- A stack snapshot in the UPDATE_ROLLBACK_COMPLETE terminal state. -/
def rollbackCompleteStack : Stack := ⟨("sid"), ("UPDATE_ROLLBACK_COMPLETE"), none, []⟩

/-- A stack snapshot in the CREATE_COMPLETE terminal state. -/
def createCompleteStack : Stack := ⟨("sid"), ("CREATE_COMPLETE"), none, []⟩

/-- A stack snapshot of an update still in progress. -/
def inProgressStack : Stack := ⟨("sid"), ("UPDATE_IN_PROGRESS"), none, []⟩

/-- A stack snapshot of an update rolling back. -/
def rollbackInProgressStack : Stack := ⟨("sid"), ("UPDATE_ROLLBACK_IN_PROGRESS"), none, []⟩

/-- A completed update snapshot carrying two outputs. -/
def demoUpdateCompleteStack : Stack :=
  ⟨("sid"), ("UPDATE_COMPLETE"), none, [⟨("Foo"), ("1")⟩, ⟨("Bar"), ("2")⟩]⟩

/-- A resource-level event of resource `r1` being created. -/
def demoResourceEvent : StackEvent := ⟨("r1"), ("CREATE_IN_PROGRESS"), none, ("phys1")⟩

/-- The stack-level anchor event opening the current update operation. -/
def demoAnchorEvent : StackEvent := ⟨("stackres"), ("UPDATE_IN_PROGRESS"), none, ("sid")⟩

/-- A resource event of a prior, already finished operation. -/
def demoOldEvent : StackEvent := ⟨("r0"), ("CREATE_COMPLETE"), none, ("phys0")⟩

/-- Three poll ticks each reporting the same CREATE_IN_PROGRESS event for the
same logical resource id while the stack stays in progress. -/
def demoProgressTicks : List Tick :=
  [⟨inProgressStack, [demoResourceEvent]⟩,
   ⟨inProgressStack, [demoResourceEvent]⟩,
   ⟨inProgressStack, [demoResourceEvent]⟩]

/-- Poll ticks of an update that starts rolling back and then terminates. -/
def demoFailTicks : List Tick :=
  [⟨rollbackInProgressStack, []⟩,
   ⟨rollbackInProgressStack, []⟩,
   ⟨rollbackCompleteStack, []⟩]

/-- Poll ticks of an operation that completes on the third poll. -/
def demoBackoffTicks : List Tick :=
  [⟨inProgressStack, []⟩, ⟨inProgressStack, []⟩, ⟨demoUpdateCompleteStack, []⟩]

/-- A buffered template file. -/
def demoBufferFile : VinylFile := ⟨("resources"), FileContents.buffer ("tpl")⟩

/-- A null placeholder file. -/
def demoNullFile : VinylFile := ⟨("resources"), FileContents.nullContents⟩

/-- A streamed (non-null, non-buffer) file. -/
def demoStreamFile : VinylFile := ⟨("resources"), FileContents.stream⟩

/-- Scripted responses for the benign no-op update: the stack exists and is
stable, and the update submission fails with the exact no-op validation
message. -/
def demoNoopEnv : DeployEnv :=
  ⟨Except.ok demoUpdateCompleteStack, [], Except.error ⟨("ValidationError"), noUpdatesMessage⟩, []⟩

/-- The stack-not-found describe error (validation-coded). -/
def demoNotFoundErr : AwsErr :=
  ⟨("ValidationError"), ("Stack with id resources does not exist")⟩

/-- A non-validation remote error. -/
def demoThrottleErr : AwsErr := ⟨("Throttling"), ("Rate exceeded")⟩

/-- Scripted responses where the initial lookup reports stack-not-found. -/
def demoNotFoundEnv : DeployEnv :=
  ⟨Except.error demoNotFoundErr, [], Except.ok ("sid"), []⟩

/-- Claim C1: the current success classifier `isDeploySuccessful` is true only
for status codes that start with CREATE or UPDATE and contain COMPLETE, and
is false for any code containing ROLLBACK; but the legacy classifier
`isDeployComplete` (deploy.js) accepts UPDATE_ROLLBACK_COMPLETE — a rolled
back, failed update — as a successful completion, contradicting the claimed
ROLLBACK exclusion (the divergence fixed by the TypeScript rewrite). -/
theorem statusClassifier_rollback (st : Stack) :
    (isDeploySuccessful st = true →
      (strStartsWith st.StackStatus ("CREATE") = true ∨
        strStartsWith st.StackStatus ("UPDATE") = true) ∧
      strIncludes st.StackStatus ("COMPLETE") = true) ∧
    (strIncludes st.StackStatus ("ROLLBACK") = true → isDeploySuccessful st = false) ∧
    isDeployComplete rollbackCompleteStack = true ∧
    isDeploySuccessful rollbackCompleteStack = false := by
  refine ⟨?_, ?_, by decide, by decide⟩
  · intro h
    unfold isDeploySuccessful at h
    simp only [Bool.and_eq_true, List.any_eq_true, List.mem_cons,
      List.mem_singleton, List.not_mem_nil] at h
    obtain ⟨⟨hC, -⟩, x, hx, hsw⟩ := h
    refine ⟨?_, hC⟩
    rcases hx with rfl | rfl | hx
    · exact Or.inl hsw
    · exact Or.inr hsw
    · cases hx
  · intro h
    unfold isDeploySuccessful
    simp [h]

/-- Witness for C1 at concrete status codes. -/
theorem statusClassifier_rollback_witness :
    isDeploySuccessful rollbackCompleteStack = false ∧
    ((strStartsWith createCompleteStack.StackStatus ("CREATE") = true ∨
        strStartsWith createCompleteStack.StackStatus ("UPDATE") = true) ∧
      strIncludes createCompleteStack.StackStatus ("COMPLETE") = true) :=
  ⟨(statusClassifier_rollback rollbackCompleteStack).2.1 (by decide),
    (statusClassifier_rollback createCompleteStack).1 (by decide)⟩

/-- Claim C3: the merged parameter list is the existing entries in their
original order, followed by one entry per map key in insertion order with the
value coerced to its string form; no key deduplication happens (occurrence
counts add up); and the claim's concrete example evaluates as stated. -/
theorem buildParameters_merge (ex : List Parameter) (ps : List (String × ParameterValue)) :
    (buildParameters (some ex) ps).take ex.length = ex ∧
    (buildParameters (some ex) ps).drop ex.length = ps.map hashParameterEntry ∧
    buildParameters none ps = ps.map hashParameterEntry ∧
    (∀ k, countParamKey k (buildParameters (some ex) ps) =
      countParamKey k ex + countParamKey k (ps.map hashParameterEntry)) ∧
    buildParameters (some [⟨("X"), ("9")⟩])
        [(("A"), ParameterValue.num 1), (("B"), ParameterValue.num 2)] =
      [⟨("X"), ("9")⟩, ⟨("A"), ("1")⟩, ⟨("B"), ("2")⟩] := by
  refine ⟨?_, ?_, rfl, ?_, by decide⟩
  · exact List.take_left ex (ps.map hashParameterEntry)
  · exact List.drop_left ex (ps.map hashParameterEntry)
  · intro k
    simp [countParamKey, buildParameters, List.filter_append]

/-- If every element of `pre` satisfies `p` and `a` does not, `takeWhile p`
of `pre ++ a :: post` is exactly `pre`. -/
theorem takeWhile_append_stop {α : Type} (p : α → Bool) (pre : List α) (a : α) (post : List α)
    (hall : ∀ e ∈ pre, p e = true) (hpa : p a = false) :
    List.takeWhile p (pre ++ a :: post) = pre := by
  induction pre with
  | nil => simp [List.takeWhile_cons, hpa]
  | cons e pre ih =>
    have he : p e = true := hall e (by simp)
    simp only [List.cons_append, List.takeWhile_cons, he, if_true]
    rw [ih (fun x hx => hall x (by simp [hx]))]

/-- Claim C4: on an event log of the form `pre ++ anchor :: post` (newest
first) whose anchor is the first initial-stack event, `retrieveStackEvents`
returns exactly the events strictly after the anchor — excluding the anchor
and everything before it — reversed into chronological order. -/
theorem retrieveStackEvents_truncation (stackId : String) (pre post : List StackEvent)
    (anchor : StackEvent)
    (h1 : isInitialStackEvent anchor stackId = true)
    (h2 : ∀ e ∈ pre, isInitialStackEvent e stackId = false) :
    retrieveStackEvents stackId (pre ++ anchor :: post) = pre.reverse := by
  unfold retrieveStackEvents
  rw [takeWhile_append_stop _ pre anchor post (fun e he => by simp [h2 e he]) (by simp [h1])]

/-- Witness for C4 on a concrete three-event log. -/
theorem retrieveStackEvents_truncation_witness :
    retrieveStackEvents ("sid") [demoResourceEvent, demoAnchorEvent, demoOldEvent] =
      [demoResourceEvent] :=
  retrieveStackEvents_truncation ("sid") [demoResourceEvent] [demoOldEvent] demoAnchorEvent
    (by decide) (by decide)

/-- Progress-line counts add over list append. -/
theorem progressCount_append (id : String) (a b : List LogLine) :
    progressCount id (a ++ b) = progressCount id a + progressCount id b := by
  simp [progressCount, List.filter_append]

/-- A classified progress line for a different logical id never counts. -/
theorem progressCount_progressLine_ne (id : String) (e : StackEvent)
    (h : e.LogicalResourceId ≠ id) : progressCount id (progressLine e) = 0 := by
  unfold progressCount progressLine
  split
  · simp [isProgressLineFor, h]
  · split
    · simp [isProgressLineFor, h]
    · split
      · simp [isProgressLineFor, h]
      · rfl

/-- One event yields at most one progress line. -/
theorem progressCount_progressLine_le (id : String) (e : StackEvent) :
    progressCount id (progressLine e) ≤ 1 := by
  have hlen : (progressLine e).length ≤ 1 := by
    unfold progressLine
    split
    · simp
    · split
      · simp
      · split <;> simp
  calc (List.filter (isProgressLineFor id) (progressLine e)).length
      ≤ (progressLine e).length := List.length_filter_le _ _
    _ ≤ 1 := hlen

/-- Failure-detail lines are not progress lines. -/
theorem progressCount_logFailures (id : String) (evs : List StackEvent) :
    progressCount id (logFailures evs) = 0 := by
  unfold progressCount logFailures
  induction List.filter (fun e => isFailedStackEvent e) evs with
  | nil => rfl
  | cons e rest ih =>
    rw [List.map_cons, List.filter_cons_of_neg (by simp [isProgressLineFor])]
    exact ih

/-- The `forEach` of deploy.ts lines 166-178: the id list only grows, an
already-reported id yields no line, any id yields at most one line, and an id
that did yield a line is in the grown id list. -/
theorem reportProgress_spec (id : String) : ∀ (evs : List StackEvent) (ids : List String),
    ids <+: (reportProgress ids evs).1 ∧
    (id ∈ ids → progressCount id (reportProgress ids evs).2 = 0) ∧
    progressCount id (reportProgress ids evs).2 ≤ 1 ∧
    (1 ≤ progressCount id (reportProgress ids evs).2 → id ∈ (reportProgress ids evs).1) := by
  intro evs
  induction evs with
  | nil =>
    intro ids
    refine ⟨List.prefix_rfl, fun _ => rfl, by simp [reportProgress, progressCount], ?_⟩
    intro h
    simp [reportProgress, progressCount] at h
  | cons e rest ih =>
    intro ids
    by_cases hmem : e.LogicalResourceId ∈ ids
    · simpa [reportProgress, hmem] using ih ids
    · obtain ⟨ih1, ih2, ih3, ih4⟩ := ih (ids ++ [e.LogicalResourceId])
      have hstep1 : (reportProgress ids (e :: rest)).1 =
          (reportProgress (ids ++ [e.LogicalResourceId]) rest).1 := by
        simp [reportProgress, hmem]
      have hstep2 : (reportProgress ids (e :: rest)).2 =
          progressLine e ++ (reportProgress (ids ++ [e.LogicalResourceId]) rest).2 := by
        simp [reportProgress, hmem]
      refine ⟨?_, ?_, ?_, ?_⟩
      · rw [hstep1]
        exact (List.prefix_append ids [e.LogicalResourceId]).trans ih1
      · intro hid
        have hne : e.LogicalResourceId ≠ id := fun h => hmem (h ▸ hid)
        rw [hstep2, progressCount_append, progressCount_progressLine_ne id e hne,
          ih2 (List.mem_append_left _ hid)]
      · rw [hstep2, progressCount_append]
        by_cases heq : e.LogicalResourceId = id
        · have hid : id ∈ ids ++ [e.LogicalResourceId] :=
            List.mem_append_right _ (by simp [heq])
          rw [ih2 hid]
          exact Nat.add_le_add (progressCount_progressLine_le id e) (Nat.le_refl 0)
        · rw [progressCount_progressLine_ne id e heq]
          simpa using ih3
      · intro hcnt
        rw [hstep1]
        by_cases heq : e.LogicalResourceId = id
        · exact ih1.subset (List.mem_append_right _ (by simp [heq]))
        · rw [hstep2, progressCount_append, progressCount_progressLine_ne id e heq] at hcnt
          exact ih4 (by simpa using hcnt)

/-- Combined dedup bound for one `forEach` pass. -/
theorem reportProgress_count_bound (id : String) (evs : List StackEvent) (ids : List String) :
    progressCount id (reportProgress ids evs).2 ≤ (if id ∈ ids then 0 else 1) := by
  by_cases h : id ∈ ids
  · simp [h, (reportProgress_spec id evs ids).2.1 h]
  · simp only [h, if_neg, if_false]
    exact (reportProgress_spec id evs ids).2.2.1

/-- A status line is not a progress line. -/
theorem progressCount_statusLine (id status : String) (d : Option Nat) :
    progressCount id [LogLine.statusLine status d] = 0 := by
  simp [progressCount, isProgressLineFor]

/-- A console-URL line is not a progress line. -/
theorem progressCount_consoleUrl (id sid : String) :
    progressCount id [LogLine.consoleUrl sid] = 0 := by
  simp [progressCount, isProgressLineFor]

/-- The event block of one tick keeps the backoff delay unchanged. -/
theorem reportTick_delay (stackId : String) (s : LoopState) (state : Stack)
    (evs : List StackEvent) : (reportTick stackId s state evs).1.delaySeconds = s.delaySeconds := by
  simp only [reportTick]
  split <;> rfl

/-- Dedup properties of the whole per-tick event block: the id list grows, the
tick emits at most one progress line per id (none for an already-reported id),
and an id that got a line is in the grown list. -/
theorem reportTick_spec (stackId id : String) (s : LoopState) (state : Stack)
    (evs : List StackEvent) :
    s.reportedLogicalIds <+: (reportTick stackId s state evs).1.reportedLogicalIds ∧
    progressCount id (reportTick stackId s state evs).2 ≤
      (if id ∈ s.reportedLogicalIds then 0 else 1) ∧
    (1 ≤ progressCount id (reportTick stackId s state evs).2 →
      id ∈ (reportTick stackId s state evs).1.reportedLogicalIds) := by
  have hb := reportProgress_count_bound id
    ((retrieveStackEvents stackId evs).filter fun e =>
      e.LogicalResourceId != ("") && e.PhysicalResourceId != stackId) s.reportedLogicalIds
  obtain ⟨h1, -, -, h4⟩ := reportProgress_spec id
    ((retrieveStackEvents stackId evs).filter fun e =>
      e.LogicalResourceId != ("") && e.PhysicalResourceId != stackId) s.reportedLogicalIds
  simp only [reportTick]
  split
  · refine ⟨h1, ?_, ?_⟩
    · rw [progressCount_append, progressCount_append, progressCount_logFailures,
        progressCount_consoleUrl]
      simpa using hb
    · intro hc
      rw [progressCount_append, progressCount_append, progressCount_logFailures,
        progressCount_consoleUrl] at hc
      exact h4 (by simpa using hc)
  · exact ⟨h1, hb, h4⟩

/-- Loop-level dedup invariant: over a whole `completedState` run with event
reporting, the reported-id list only grows and each id receives at most one
progress line (none if it was already reported on entry). -/
theorem completedState_dedup_aux (stackId : String) (wfc : Bool) (id : String) :
    ∀ (ticks : List Tick) (s : LoopState),
      s.reportedLogicalIds <+:
        (completedState stackId true wfc s ticks).endState.reportedLogicalIds ∧
      progressCount id (completedState stackId true wfc s ticks).log ≤
        (if id ∈ s.reportedLogicalIds then 0 else 1) := by
  intro ticks
  induction ticks with
  | nil =>
    intro s
    exact ⟨List.prefix_rfl, by simp [completedState, progressCount]⟩
  | cons t rest ih =>
    intro s
    obtain ⟨t1, t2, t3⟩ := reportTick_spec stackId id s t.stack t.events
    cases hc : (!isInProgress t.stack || (!wfc && isCleanupInProgress t.stack)) with
    | true =>
      have hstep : completedState stackId true wfc s (t :: rest) =
          ⟨some t.stack,
            (reportTick stackId s t.stack t.events).2 ++
              [LogLine.statusLine t.stack.StackStatus none],
            [], 1, [t.stack], (reportTick stackId s t.stack t.events).1⟩ := by
        simp [completedState, hc]
      rw [hstep]
      refine ⟨t1, ?_⟩
      rw [progressCount_append, progressCount_statusLine]
      simpa using t2
    | false =>
      have hstep : completedState stackId true wfc s (t :: rest) =
          ⟨(completedState stackId true wfc
              ⟨(reportTick stackId s t.stack t.events).1.haveReportedFailures,
                (reportTick stackId s t.stack t.events).1.reportedLogicalIds,
                min ((reportTick stackId s t.stack t.events).1.delaySeconds * 2)
                  MAX_REPORT_SECONDS⟩ rest).finalState,
            (reportTick stackId s t.stack t.events).2 ++
              [LogLine.statusLine t.stack.StackStatus
                (some (reportTick stackId s t.stack t.events).1.delaySeconds)] ++
              (completedState stackId true wfc
                ⟨(reportTick stackId s t.stack t.events).1.haveReportedFailures,
                  (reportTick stackId s t.stack t.events).1.reportedLogicalIds,
                  min ((reportTick stackId s t.stack t.events).1.delaySeconds * 2)
                    MAX_REPORT_SECONDS⟩ rest).log,
            (reportTick stackId s t.stack t.events).1.delaySeconds ::
              (completedState stackId true wfc
                ⟨(reportTick stackId s t.stack t.events).1.haveReportedFailures,
                  (reportTick stackId s t.stack t.events).1.reportedLogicalIds,
                  min ((reportTick stackId s t.stack t.events).1.delaySeconds * 2)
                    MAX_REPORT_SECONDS⟩ rest).delays,
            (completedState stackId true wfc
              ⟨(reportTick stackId s t.stack t.events).1.haveReportedFailures,
                (reportTick stackId s t.stack t.events).1.reportedLogicalIds,
                min ((reportTick stackId s t.stack t.events).1.delaySeconds * 2)
                  MAX_REPORT_SECONDS⟩ rest).polls + 1,
            t.stack ::
              (completedState stackId true wfc
                ⟨(reportTick stackId s t.stack t.events).1.haveReportedFailures,
                  (reportTick stackId s t.stack t.events).1.reportedLogicalIds,
                  min ((reportTick stackId s t.stack t.events).1.delaySeconds * 2)
                    MAX_REPORT_SECONDS⟩ rest).polledStates,
            (completedState stackId true wfc
              ⟨(reportTick stackId s t.stack t.events).1.haveReportedFailures,
                (reportTick stackId s t.stack t.events).1.reportedLogicalIds,
                min ((reportTick stackId s t.stack t.events).1.delaySeconds * 2)
                  MAX_REPORT_SECONDS⟩ rest).endState⟩ := by
        simp [completedState, hc]
      obtain ⟨ihp, ihc⟩ := ih
        ⟨(reportTick stackId s t.stack t.events).1.haveReportedFailures,
          (reportTick stackId s t.stack t.events).1.reportedLogicalIds,
          min ((reportTick stackId s t.stack t.events).1.delaySeconds * 2) MAX_REPORT_SECONDS⟩
      rw [hstep]
      constructor
      · exact t1.trans ihp
      · rw [progressCount_append, progressCount_append, progressCount_statusLine]
        by_cases hmem : id ∈ s.reportedLogicalIds
        · have hz : progressCount id (reportTick stackId s t.stack t.events).2 = 0 :=
            Nat.le_zero.mp (by simpa [hmem] using t2)
          have hin : id ∈ (reportTick stackId s t.stack t.events).1.reportedLogicalIds :=
            t1.subset hmem
          have hz2 : progressCount id (completedState stackId true wfc
              ⟨(reportTick stackId s t.stack t.events).1.haveReportedFailures,
                (reportTick stackId s t.stack t.events).1.reportedLogicalIds,
                min ((reportTick stackId s t.stack t.events).1.delaySeconds * 2)
                  MAX_REPORT_SECONDS⟩ rest).log = 0 :=
            Nat.le_zero.mp (by simpa [hin] using ihc)
          simp [hmem, hz, hz2]
        · simp only [hmem, if_neg, if_false]
          rcases Nat.eq_zero_or_pos
            (progressCount id (reportTick stackId s t.stack t.events).2) with hz | hpos
          · have : progressCount id (completedState stackId true wfc
                ⟨(reportTick stackId s t.stack t.events).1.haveReportedFailures,
                  (reportTick stackId s t.stack t.events).1.reportedLogicalIds,
                  min ((reportTick stackId s t.stack t.events).1.delaySeconds * 2)
                    MAX_REPORT_SECONDS⟩ rest).log ≤ 1 := by
              refine le_trans ihc ?_
              split <;> simp
            omega
          · have hin := t3 hpos
            have hz3 : progressCount id (completedState stackId true wfc
                ⟨(reportTick stackId s t.stack t.events).1.haveReportedFailures,
                  (reportTick stackId s t.stack t.events).1.reportedLogicalIds,
                  min ((reportTick stackId s t.stack t.events).1.delaySeconds * 2)
                    MAX_REPORT_SECONDS⟩ rest).log = 0 :=
              Nat.le_zero.mp (by simpa [hin] using ihc)
            have ht : progressCount id (reportTick stackId s t.stack t.events).2 ≤ 1 := by
              simpa [hmem] using t2
            omega

/-- Claim C5: within one poll-loop invocation with event reporting, at most
one progress line is emitted per logical resource id (none if the id was
already reported on entry), the reported-id list only grows, and the claim's
concrete scenario — three CREATE_IN_PROGRESS events for the same logical id
across three ticks — yields exactly one creating line. -/
theorem completedState_progress_dedup (stackId : String) (wfc : Bool) (ticks : List Tick)
    (s : LoopState) (id : String) :
    progressCount id (completedState stackId true wfc s ticks).log ≤
      (if id ∈ s.reportedLogicalIds then 0 else 1) ∧
    s.reportedLogicalIds <+:
      (completedState stackId true wfc s ticks).endState.reportedLogicalIds ∧
    progressCount ("r1")
      (completedState ("sid") true false initialLoopState demoProgressTicks).log = 1 := by
  obtain ⟨h1, h2⟩ := completedState_dedup_aux stackId wfc id ticks s
  exact ⟨h2, h1, by decide⟩

/-- Step equation of `completedState` on a completed tick. -/
theorem completedState_cons_done (stackId : String) (re wfc : Bool) (s : LoopState)
    (t : Tick) (rest : List Tick)
    (hc : (!isInProgress t.stack || (!wfc && isCleanupInProgress t.stack)) = true) :
    completedState stackId re wfc s (t :: rest) =
      ⟨some t.stack,
        (tickEventsResult re stackId s t).2 ++
          [LogLine.statusLine t.stack.StackStatus none],
        [], 1, [t.stack], (tickEventsResult re stackId s t).1⟩ := by
  simp [completedState, tickEventsResult, hc]

/-- Step equation of `completedState` on a non-completed tick. -/
theorem completedState_cons_next (stackId : String) (re wfc : Bool) (s : LoopState)
    (t : Tick) (rest : List Tick)
    (hc : (!isInProgress t.stack || (!wfc && isCleanupInProgress t.stack)) = false) :
    completedState stackId re wfc s (t :: rest) =
      ⟨(completedState stackId re wfc (nextLoopState re stackId s t) rest).finalState,
        (tickEventsResult re stackId s t).2 ++
          [LogLine.statusLine t.stack.StackStatus
            (some (tickEventsResult re stackId s t).1.delaySeconds)] ++
          (completedState stackId re wfc (nextLoopState re stackId s t) rest).log,
        (tickEventsResult re stackId s t).1.delaySeconds ::
          (completedState stackId re wfc (nextLoopState re stackId s t) rest).delays,
        (completedState stackId re wfc (nextLoopState re stackId s t) rest).polls + 1,
        t.stack ::
          (completedState stackId re wfc (nextLoopState re stackId s t) rest).polledStates,
        (completedState stackId re wfc (nextLoopState re stackId s t) rest).endState⟩ := by
  simp [completedState, tickEventsResult, nextLoopState, hc]

/-- URL-line counts add over list append. -/
theorem urlCount_append (a b : List LogLine) :
    urlCount (a ++ b) = urlCount a + urlCount b := by
  simp [urlCount, List.filter_append]

/-- An event's progress line is never the console-URL line. -/
theorem urlCount_progressLine (e : StackEvent) : urlCount (progressLine e) = 0 := by
  unfold urlCount progressLine
  split
  · rfl
  · split
    · rfl
    · split <;> rfl

/-- The dedup pass emits no console-URL line. -/
theorem urlCount_reportProgress (evs : List StackEvent) :
    ∀ ids : List String, urlCount (reportProgress ids evs).2 = 0 := by
  induction evs with
  | nil => intro ids; rfl
  | cons e rest ih =>
    intro ids
    by_cases hmem : e.LogicalResourceId ∈ ids
    · simpa [reportProgress, hmem] using ih ids
    · have hstep : (reportProgress ids (e :: rest)).2 =
          progressLine e ++ (reportProgress (ids ++ [e.LogicalResourceId]) rest).2 := by
        simp [reportProgress, hmem]
      rw [hstep, urlCount_append, urlCount_progressLine, ih]

/-- Failure-detail lines are not the console-URL line. -/
theorem urlCount_logFailures (evs : List StackEvent) : urlCount (logFailures evs) = 0 := by
  unfold urlCount logFailures
  induction List.filter (fun e => isFailedStackEvent e) evs with
  | nil => rfl
  | cons e rest ih =>
    rw [List.map_cons, List.filter_cons_of_neg (by simp [isConsoleUrlLine])]
    exact ih

/-- A status line is not the console-URL line. -/
theorem urlCount_statusLine (status : String) (d : Option Nat) :
    urlCount [LogLine.statusLine status d] = 0 := by
  simp [urlCount, isConsoleUrlLine]

/-- One tick's event block emits the console-URL line exactly when the
failure latch is still clear and the state indicates failure, and the latch
afterwards is the OR of its old value and the failure indication. -/
theorem reportTick_url (stackId : String) (s : LoopState) (state : Stack)
    (evs : List StackEvent) :
    urlCount (reportTick stackId s state evs).2 =
      (if s.haveReportedFailures = false ∧ stackStateIndicatesFailure state = true
        then 1 else 0) ∧
    (reportTick stackId s state evs).1.haveReportedFailures =
      (s.haveReportedFailures || stackStateIndicatesFailure state) := by
  simp only [reportTick]
  split
  · rename_i h
    simp only [Bool.and_eq_true, Bool.not_eq_true'] at h
    constructor
    · rw [urlCount_append, urlCount_append, urlCount_logFailures, urlCount_reportProgress]
      simp [urlCount, isConsoleUrlLine, h.1, h.2]
    · simp [h.1, h.2]
  · rename_i h
    simp only [Bool.not_eq_true, Bool.and_eq_false_iff, Bool.not_eq_false'] at h
    constructor
    · rw [urlCount_reportProgress]
      rcases h with h | h <;> simp [h]
    · rcases h with h | h <;> simp [h]

/-- Loop-level failure-report invariant: with the latch set nothing more is
emitted; with the latch clear the console-URL line is emitted exactly once if
some polled state indicates failure, else not at all. -/
theorem completedState_url_aux (stackId : String) (wfc : Bool) :
    ∀ (ticks : List Tick) (s : LoopState),
      (s.haveReportedFailures = true →
        urlCount (completedState stackId true wfc s ticks).log = 0) ∧
      (s.haveReportedFailures = false →
        urlCount (completedState stackId true wfc s ticks).log =
          (if (completedState stackId true wfc s ticks).polledStates.any
              stackStateIndicatesFailure then 1 else 0)) := by
  intro ticks
  induction ticks with
  | nil =>
    intro s
    exact ⟨fun _ => rfl, fun _ => rfl⟩
  | cons t rest ih =>
    intro s
    obtain ⟨u1, u2⟩ := reportTick_url stackId s t.stack t.events
    have htick : urlCount (tickEventsResult true stackId s t).2 =
        (if s.haveReportedFailures = false ∧
            stackStateIndicatesFailure t.stack = true then 1 else 0) := u1
    have hflag : (tickEventsResult true stackId s t).1.haveReportedFailures =
        (s.haveReportedFailures || stackStateIndicatesFailure t.stack) := u2
    cases hc : (!isInProgress t.stack || (!wfc && isCleanupInProgress t.stack)) with
    | true =>
      rw [completedState_cons_done stackId true wfc s t rest hc]
      constructor
      · intro hs
        simp only [urlCount_append, urlCount_statusLine, htick]
        simp [hs]
      · intro hs
        simp only [urlCount_append, urlCount_statusLine, htick, hs]
        cases hf : stackStateIndicatesFailure t.stack <;> simp [hf, List.any_cons]
    | false =>
      rw [completedState_cons_next stackId true wfc s t rest hc]
      obtain ⟨ih1, ih2⟩ := ih (nextLoopState true stackId s t)
      constructor
      · intro hs
        have hflag2 : (nextLoopState true stackId s t).haveReportedFailures = true := by
          simp [nextLoopState, hflag, hs]
        simp only [urlCount_append, urlCount_statusLine, htick, ih1 hflag2]
        simp [hs]
      · intro hs
        cases hf : stackStateIndicatesFailure t.stack with
        | true =>
          have hflag2 : (nextLoopState true stackId s t).haveReportedFailures = true := by
            simp [nextLoopState, hflag, hs, hf]
          simp only [urlCount_append, urlCount_statusLine, htick, ih1 hflag2, hs, hf]
          simp [List.any_cons, hf]
        | false =>
          have hflag2 : (nextLoopState true stackId s t).haveReportedFailures = false := by
            simp [nextLoopState, hflag, hs, hf]
          simp only [urlCount_append, urlCount_statusLine, htick, ih2 hflag2, hs, hf]
          simp [List.any_cons, hf]

/-- Claim C8: within one reporting poll loop started with the failure latch
clear, the failure report's console-URL line is emitted exactly once if any
polled stack state indicates failure (i.e. on the first such tick, never
repeated afterwards), and not at all otherwise. -/
theorem completedState_failure_reported_once (stackId : String) (wfc : Bool)
    (ticks : List Tick) (s : LoopState) (h : s.haveReportedFailures = false) :
    urlCount (completedState stackId true wfc s ticks).log =
      (if (completedState stackId true wfc s ticks).polledStates.any
          stackStateIndicatesFailure then 1 else 0) :=
  (completedState_url_aux stackId wfc ticks s).2 h

/-- Witness for C8 on a concrete rollback run. -/
theorem completedState_failure_reported_once_witness :
    urlCount (completedState ("sid") true false initialLoopState demoFailTicks).log =
      (if (completedState ("sid") true false initialLoopState demoFailTicks).polledStates.any
          stackStateIndicatesFailure then 1 else 0) :=
  completedState_failure_reported_once ("sid") false demoFailTicks initialLoopState rfl

/-- The event block of a tick never changes the backoff delay. -/
theorem tickEventsResult_delay (re : Bool) (stackId : String) (s : LoopState) (t : Tick) :
    (tickEventsResult re stackId s t).1.delaySeconds = s.delaySeconds := by
  unfold tickEventsResult
  split
  · exact reportTick_delay stackId s t.stack t.events
  · rfl

/-- Loop-level backoff invariant: consecutive slept delays satisfy
`next = min (prev * 2) MAX_REPORT_SECONDS`, the first slept delay is the
entry delay, and when the entry delay is within the cap the delay sequence is
non-decreasing and capped. -/
theorem completedState_backoff_aux (stackId : String) (re wfc : Bool) :
    ∀ (ticks : List Tick) (s : LoopState),
      List.Chain' (fun a b => b = min (a * 2) MAX_REPORT_SECONDS)
        (completedState stackId re wfc s ticks).delays ∧
      ((completedState stackId re wfc s ticks).delays = [] ∨
        (completedState stackId re wfc s ticks).delays.head? = some s.delaySeconds) ∧
      (s.delaySeconds ≤ MAX_REPORT_SECONDS →
        List.Chain' (fun a b : Nat => a ≤ b) (completedState stackId re wfc s ticks).delays ∧
        ∀ d ∈ (completedState stackId re wfc s ticks).delays, d ≤ MAX_REPORT_SECONDS) := by
  intro ticks
  induction ticks with
  | nil =>
    intro s
    exact ⟨by simp [completedState], Or.inl (by simp [completedState]),
      fun _ => ⟨by simp [completedState], by simp [completedState]⟩⟩
  | cons t rest ih =>
    intro s
    cases hc : (!isInProgress t.stack || (!wfc && isCleanupInProgress t.stack)) with
    | true =>
      rw [completedState_cons_done stackId re wfc s t rest hc]
      exact ⟨by simp, Or.inl rfl, fun _ => ⟨by simp, by simp⟩⟩
    | false =>
      rw [completedState_cons_next stackId re wfc s t rest hc]
      obtain ⟨ih1, ih2, ih3⟩ := ih (nextLoopState re stackId s t)
      have hd : (tickEventsResult re stackId s t).1.delaySeconds = s.delaySeconds :=
        tickEventsResult_delay re stackId s t
      have hnext : (nextLoopState re stackId s t).delaySeconds =
          min (s.delaySeconds * 2) MAX_REPORT_SECONDS := by
        simp [nextLoopState, hd]
      refine ⟨?_, ?_, ?_⟩
      · rw [hd, List.chain'_cons']
        refine ⟨?_, ih1⟩
        intro y hy
        rcases ih2 with h0 | h0
        · rw [h0] at hy
          simp at hy
        · rw [h0] at hy
          simp at hy
          rw [← hy, hnext]
      · right
        rw [hd]
        rfl
      · intro hle
        have hle2 : (nextLoopState re stackId s t).delaySeconds ≤ MAX_REPORT_SECONDS := by
          rw [hnext]
          exact Nat.min_le_right _ _
        obtain ⟨ihA, ihB⟩ := ih3 hle2
        constructor
        · rw [hd, List.chain'_cons']
          refine ⟨?_, ihA⟩
          intro y hy
          rcases ih2 with h0 | h0
          · rw [h0] at hy
            simp at hy
          · rw [h0] at hy
            simp at hy
            rw [← hy, hnext]
            exact Nat.le_min.mpr ⟨by omega, hle⟩
        · intro d hd2
          rw [hd] at hd2
          rcases List.mem_cons.mp hd2 with h0 | h0
          · rw [h0]
            exact hle
          · exact ihB d h0

/-- Claim C9: starting from the loop entry state, a `completedState` run's
successive slept delays start at 2 seconds, each next delay is the previous
doubled and capped at `MAX_REPORT_SECONDS` (15), hence the sequence is
non-decreasing and never exceeds the cap. -/
theorem completedState_backoff (stackId : String) (re wfc : Bool) (ticks : List Tick) :
    List.Chain' (fun a b => b = min (a * 2) MAX_REPORT_SECONDS)
      (completedState stackId re wfc initialLoopState ticks).delays ∧
    ((completedState stackId re wfc initialLoopState ticks).delays = [] ∨
      (completedState stackId re wfc initialLoopState ticks).delays.head? = some 2) ∧
    List.Chain' (fun a b : Nat => a ≤ b)
      (completedState stackId re wfc initialLoopState ticks).delays ∧
    ∀ d ∈ (completedState stackId re wfc initialLoopState ticks).delays,
      d ≤ MAX_REPORT_SECONDS := by
  obtain ⟨h1, h2, h3⟩ := completedState_backoff_aux stackId re wfc ticks initialLoopState
  obtain ⟨h4, h5⟩ := h3 (by decide)
  exact ⟨h1, h2, h4, h5⟩

/-- Witness for C9 on a run that polls three times (delays 2 and 4). -/
theorem completedState_backoff_witness :
    (completedState ("sid") true false initialLoopState demoBackoffTicks).delays.head? =
      some 2 ∧
    4 ≤ MAX_REPORT_SECONDS :=
  ⟨((completedState_backoff ("sid") true false demoBackoffTicks).2.1).resolve_left (by decide),
    (completedState_backoff ("sid") true false demoBackoffTicks).2.2.2 4 (by decide)⟩

/-- Whatever the submission outcome, the recorded operation kind is the
update flag computed from the resolved initial state. -/
theorem submitAndFinish_submittedUpdate (env : DeployEnv) (stackOptions : StackInput)
    (initialState : Option Stack) (dp : StackInput) (calls : Nat) :
    (submitAndFinish env stackOptions initialState dp calls).submittedUpdate =
      some initialState.isSome := by
  simp only [submitAndFinish]
  repeat' split
  all_goals rfl

/-- The wait-out-previous-operation step only fails with the model's
ran-out-of-ticks marker. -/
theorem waitForPrevious_error_eq (env : DeployEnv) (found : Option Stack)
    (err : DeployError) (h : waitForPrevious env found = Except.error err) :
    err = DeployError.pollExhausted := by
  unfold waitForPrevious at h
  split at h
  · cases h
  · split at h
    · split at h
      · cases h
      · injection h with h2
        exact h2.symm
    · cases h

/-- After the file gate, the engine can never raise the buffered-files
error: every error of the body is a rethrown remote error, a
deployment-failed error, or the model's ran-out-of-ticks marker. -/
theorem deployBody_ne_buffered (env : DeployEnv) (so : StackInput)
    (ps : List (String × ParameterValue)) (tb : String) :
    (deployBody env so ps tb).result ≠ Except.error DeployError.bufferedFiles := by
  simp only [deployBody]
  split
  · simp
  · split
    · rename_i err heq
      rw [waitForPrevious_error_eq env _ err heq]
      simp
    · simp only [submitAndFinish, finishDeploy]
      repeat' split
      all_goals simp

/-- Claim C10: a null file is passed through unchanged with no error and no
remote call; a stream (non-null, non-buffer) file raises the buffered-files
error before any remote call; and a buffered file can never produce the
buffered-files error. -/
theorem deploy_file_gate (env : DeployEnv) (sno : Option (String ⊕ StackInput))
    (ps : List (String × ParameterValue)) (file : VinylFile) :
    (file.contents = FileContents.nullContents →
      (deploy env sno ps file).result = Except.ok (DeployOutput.passthrough file) ∧
      (deploy env sno ps file).remoteCalls = 0) ∧
    (file.contents = FileContents.stream →
      (deploy env sno ps file).result = Except.error DeployError.bufferedFiles ∧
      (deploy env sno ps file).remoteCalls = 0) ∧
    (∀ body, file.contents = FileContents.buffer body →
      (deploy env sno ps file).result ≠ Except.error DeployError.bufferedFiles) := by
  refine ⟨?_, ?_, ?_⟩
  · intro h
    constructor <;> simp [deploy, h]
  · intro h
    constructor <;> simp [deploy, h]
  · intro body h
    simp only [deploy, h]
    exact deployBody_ne_buffered env _ ps body

/-- Witness for C10 on concrete null and stream files. -/
theorem deploy_file_gate_witness :
    ((deploy demoNoopEnv none [] demoNullFile).result =
        Except.ok (DeployOutput.passthrough demoNullFile) ∧
      (deploy demoNoopEnv none [] demoNullFile).remoteCalls = 0) ∧
    ((deploy demoNoopEnv none [] demoStreamFile).result =
        Except.error DeployError.bufferedFiles ∧
      (deploy demoNoopEnv none [] demoStreamFile).remoteCalls = 0) :=
  ⟨(deploy_file_gate demoNoopEnv none [] demoNullFile).1 rfl,
    (deploy_file_gate demoNoopEnv none [] demoStreamFile).2.1 rfl⟩

/-- Claim C2: when an update submission fails with the exact validation-coded
"No updates are to be performed." message, the engine performs no polling of
the main loop and returns a success outcome derived from the pre-update
stack state. -/
theorem deploy_noop_update (env : DeployEnv) (sno : Option (String ⊕ StackInput))
    (ps : List (String × ParameterValue)) (file : VinylFile) (body : String) (st : Stack)
    (hfile : file.contents = FileContents.buffer body)
    (hlookup : env.lookupResult = Except.ok st)
    (hprog : isInProgress st = false)
    (hsubmit : env.submitResult = Except.error ⟨("ValidationError"), noUpdatesMessage⟩) :
    (deploy env sno ps file).result =
      Except.ok (DeployOutput.outputFile (simplifiedOutput st)) ∧
    (deploy env sno ps file).mainPolls = 0 := by
  constructor <;>
    simp [deploy, deployBody, submitAndFinish, lookupInitialState, waitForPrevious,
      waitCalls, finishDeploy, hfile, hlookup, hsubmit, hprog, noUpdatesMessage]

/-- Witness for C2 on concrete scripted responses. -/
theorem deploy_noop_update_witness :
    (deploy demoNoopEnv none [] demoBufferFile).result =
      Except.ok (DeployOutput.outputFile (simplifiedOutput demoUpdateCompleteStack)) ∧
    (deploy demoNoopEnv none [] demoBufferFile).mainPolls = 0 :=
  deploy_noop_update demoNoopEnv none [] demoBufferFile ("tpl") demoUpdateCompleteStack
    rfl rfl (by decide) rfl

/-- Claim C6: the submission payload carries the `OnFailure: DELETE` default
exactly when creating and the caller did not specify one, a caller-specified
`OnFailure` always wins, and the merged parameter list and the template body
are set last so the caller's stale fields cannot override them. -/
theorem deployParams_onFailure (so : StackInput) (ps : List (String × ParameterValue))
    (tb : String) :
    (so.OnFailure = none →
      (deployParams false so ps tb).OnFailure = some ("DELETE") ∧
      (deployParams true so ps tb).OnFailure = none) ∧
    (∀ v, so.OnFailure = some v → ∀ u : Bool, (deployParams u so ps tb).OnFailure = some v) ∧
    (∀ u : Bool, (deployParams u so ps tb).Parameters =
      some (buildParameters so.Parameters ps)) ∧
    (∀ u : Bool, (deployParams u so ps tb).TemplateBody = some tb) := by
  refine ⟨?_, ?_, ?_, ?_⟩
  · intro h
    constructor <;> simp [deployParams, StackInput.spread, h]
  · intro v h u
    cases u <;> simp [deployParams, StackInput.spread, h]
  · intro u
    cases u <;> rfl
  · intro u
    cases u <;> rfl

/-- Witness for C6: the default applies on create, is absent on update, and a
caller-specified value survives. -/
theorem deployParams_onFailure_witness :
    ((deployParams false {} [] ("tb")).OnFailure = some ("DELETE") ∧
      (deployParams true {} [] ("tb")).OnFailure = none) ∧
    (deployParams false { OnFailure := some ("ROLLBACK") } [] ("tb")).OnFailure =
      some ("ROLLBACK") :=
  ⟨(deployParams_onFailure {} [] ("tb")).1 rfl,
    (deployParams_onFailure { OnFailure := some ("ROLLBACK") } [] ("tb")).2.1
      ("ROLLBACK") rfl false⟩

/-- Claim C7: during the initial lookup a validation-coded (stack-not-found)
error is swallowed and leads to a Create submission, any other lookup error
propagates unchanged, and the submission is an Update exactly when an
existing stack state was resolved (directly, or after waiting out an
in-progress previous operation). -/
theorem deploy_lookup_spec (env : DeployEnv) (sno : Option (String ⊕ StackInput))
    (ps : List (String × ParameterValue)) (file : VinylFile) (body : String)
    (e : AwsErr) (st st2 : Stack) :
    (e.code = ("ValidationError") → lookupInitialState (Except.error e) = Except.ok none) ∧
    (e.code ≠ ("ValidationError") →
      lookupInitialState (Except.error e) = Except.error e ∧
      (file.contents = FileContents.buffer body → env.lookupResult = Except.error e →
        (deploy env sno ps file).result = Except.error (DeployError.remote e))) ∧
    (file.contents = FileContents.buffer body → env.lookupResult = Except.error e →
      e.code = ("ValidationError") →
      (deploy env sno ps file).submittedUpdate = some false) ∧
    (file.contents = FileContents.buffer body → env.lookupResult = Except.ok st →
      isInProgress st = false →
      (deploy env sno ps file).submittedUpdate = some true) ∧
    (file.contents = FileContents.buffer body → env.lookupResult = Except.ok st →
      isInProgress st = true →
      (completedState st.StackId false true initialLoopState env.waitTicks).finalState =
        some st2 →
      (deploy env sno ps file).submittedUpdate = some true) := by
  refine ⟨?_, ?_, ?_, ?_, ?_⟩
  · intro h
    simp [lookupInitialState, h]
  · intro h
    refine ⟨by simp [lookupInitialState, h], ?_⟩
    intro hfile hl
    simp [deploy, deployBody, lookupInitialState, hfile, hl, h]
  · intro hfile hl hcode
    simp only [deploy, deployBody, hfile, hl, lookupInitialState, hcode, if_pos,
      waitForPrevious]
    rw [submitAndFinish_submittedUpdate]
    rfl
  · intro hfile hl hprog
    simp only [deploy, deployBody, hfile, hl, lookupInitialState, waitForPrevious, hprog]
    simp only [Bool.false_eq_true, if_false]
    rw [submitAndFinish_submittedUpdate]
    rfl
  · intro hfile hl hprog hwait
    simp only [deploy, deployBody, hfile, hl, lookupInitialState, waitForPrevious, hprog,
      if_true, hwait]
    rw [submitAndFinish_submittedUpdate]
    rfl

/-- Witness for C7: not-found leads to a Create, a throttling error
propagates, a resolved stable stack leads to an Update. -/
theorem deploy_lookup_spec_witness :
    lookupInitialState (Except.error demoNotFoundErr) = Except.ok none ∧
    lookupInitialState (Except.error demoThrottleErr) = Except.error demoThrottleErr ∧
    (deploy demoNotFoundEnv none [] demoBufferFile).submittedUpdate = some false ∧
    (deploy demoNoopEnv none [] demoBufferFile).submittedUpdate = some true :=
  ⟨(deploy_lookup_spec demoNotFoundEnv none [] demoBufferFile ("tpl") demoNotFoundErr
      demoUpdateCompleteStack demoUpdateCompleteStack).1 rfl,
    ((deploy_lookup_spec demoNotFoundEnv none [] demoBufferFile ("tpl") demoThrottleErr
      demoUpdateCompleteStack demoUpdateCompleteStack).2.1 (by decide)).1,
    (deploy_lookup_spec demoNotFoundEnv none [] demoBufferFile ("tpl") demoNotFoundErr
      demoUpdateCompleteStack demoUpdateCompleteStack).2.2.1 rfl rfl rfl,
    (deploy_lookup_spec demoNoopEnv none [] demoBufferFile ("tpl") demoNotFoundErr
      demoUpdateCompleteStack demoUpdateCompleteStack).2.2.2.1 rfl rfl (by decide)⟩

end CfDeploy
